import Mathlib

/-
Verification of the Declare constraint-to-graph translation and layout
core of the arm-to-bpmn-and-declare repository.

Embedded source files:
  * constraintMap.ts        (function getConstraintEdges)
  * declareVisualizer.tsx   (the DeclareVisualizer effect body: guard,
                             node/edge assembly, cola layout options,
                             post-layout repositioning of init nodes)

Strings are modelled through their character lists; JavaScript's
`toLowerCase` is modelled per character by Char.toLower and the regular
expression class [\s-] by Char.isWhitespace / the hyphen character, which
agree on all ASCII inputs.  JavaScript array indices are modelled by Nat.
-/

namespace DeclareViz

/-- The `data` record of a cytoscape edge definition.  Fields that a given
edge does not carry (`label`, `constraint`) are `none`, matching an absent
property on the JavaScript object. -/
structure EdgeData where
  id : String
  source : String
  target : String
  label : Option String := none
  constraint : Option String := none
deriving DecidableEq, Repr

/-- A cytoscape edge element definition: its data plus its class string. -/
structure EdgeDef where
  data : EdgeData
  classes : String := ""
deriving DecidableEq, Repr

/-- `constraint.toLowerCase().replace(/[\s-]/g, '_')` from
constraintMap.ts line 21: lower-case every character, then replace every
single whitespace or hyphen character by an underscore. -/
def normalizeKind (constraint : String) : String :=
  String.mk ((constraint.data.map Char.toLower).map
    (fun c => if c.isWhitespace || c == '-' then '_' else c))

/-- `getConstraintEdges` from constraintMap.ts: maps a Declare constraint
kind plus source, target and occurrence index to the list of cytoscape
edge definitions that visualize it.  `baseId` is the source's id-prefix
string template.  The duplicated `-2` ids in the chain_succession and
chain_precedence branches are verbatim from the source. -/
def getConstraintEdges (constraint source target : String) (index : Nat) :
    List EdgeDef :=
  let normalized := normalizeKind constraint
  let baseId := source ++ "->" ++ target ++ "-" ++ normalized ++ "-" ++ toString index
  if normalized = "succession" then
    [ { data := { id := baseId ++ "-main", source := source, target := target },
        classes := "succession-main" },
      { data := { id := baseId ++ "-sourcecircle", source := source, target := target },
        classes := "succession-source-circle" },
      { data := { id := baseId ++ "-targettriangle", source := source, target := target },
        classes := "succession-target-triangle" },
      { data := { id := baseId ++ "-targetcircle", source := source, target := target },
        classes := "succession-target-circle" } ]
  else if normalized = "precedence" then
    [ { data := { id := baseId ++ "-triangle", source := source, target := target },
        classes := "precedence-arrow" },
      { data := { id := baseId ++ "-circle", source := source, target := target },
        classes := "precedence-circle-offset" } ]
  else if normalized = "response" then
    [ { data := { id := baseId, source := source, target := target },
        classes := "line-single source-circle-target-triangle" } ]
  else if normalized = "neg_precedence" then
    [ { data := { id := baseId ++ "-circle", source := source, target := target },
        classes := "line-negative compound-arrow-circle" },
      { data := { id := baseId ++ "-triangle", source := source, target := target },
        classes := "line-negative compound-arrow-triangle" } ]
  else if normalized = "neg_response" then
    [ { data := { id := baseId, source := source, target := target },
        classes := "line-negative source-circle-target-triangle" } ]
  else if normalized = "not_coexistence" then
    [ { data := { id := baseId, source := source, target := target },
        classes := "line-negative both-circle" } ]
  else if normalized = "resp_absence" then
    [ { data := { id := baseId, source := source, target := target },
        classes := "line-negative source-circle" } ]
  else if normalized = "coexistence" then
    [ { data := { id := baseId, source := source, target := target },
        classes := "line-single both-circle" } ]
  else if normalized = "chain_succession" then
    [ { data := { id := baseId ++ "-1", source := source, target := target },
        classes := "line-triple-1" },
      { data := { id := baseId ++ "-2", source := source, target := target },
        classes := "line-triple-2 source-circle compound-arrow-circle" },
      { data := { id := baseId ++ "-2", source := source, target := target },
        classes := "line-triple-2 compound-arrow-triangle" },
      { data := { id := baseId ++ "-3", source := source, target := target },
        classes := "line-triple-3" } ]
  else if normalized = "chain_response" then
    [ { data := { id := baseId ++ "-1", source := source, target := target },
        classes := "line-triple-1" },
      { data := { id := baseId ++ "-2", source := source, target := target },
        classes := "line-triple-2 source-circle-target-triangle" },
      { data := { id := baseId ++ "-3", source := source, target := target },
        classes := "line-triple-3" } ]
  else if normalized = "chain_precedence" then
    [ { data := { id := baseId ++ "-1", source := source, target := target },
        classes := "line-triple-1" },
      { data := { id := baseId ++ "-2", source := source, target := target },
        classes := "line-triple-2 compound-arrow-circle" },
      { data := { id := baseId ++ "-2", source := source, target := target },
        classes := "line-triple-2 compound-arrow-triangle" },
      { data := { id := baseId ++ "-3", source := source, target := target },
        classes := "line-triple-3" } ]
  else if normalized = "resp_existence" then
    [ { data := { id := baseId, source := source, target := target },
        classes := "line-single source-circle" } ]
  else if normalized = "choice" then
    [ { data := { id := baseId, source := source, target := target },
        classes := "line-choice" } ]
  else
    [ { data := { id := baseId, source := source, target := target, label := some normalized },
        classes := "line-single" } ]

/-- The thirteen constraint kinds that have their own row in the mapping
table (every `case` label of the switch in constraintMap.ts). -/
def tableKinds : List String :=
  [ "succession", "precedence", "response", "neg_precedence", "neg_response",
    "not_coexistence", "resp_absence", "coexistence", "chain_succession",
    "chain_response", "chain_precedence", "resp_existence", "choice" ]

/-- Helper constructor for an edge definition carrying only id, source,
target and a class string (the shape used by most rows of the table). -/
def mkEdge (id source target classes : String) : EdgeDef :=
  { data := { id := id, source := source, target := target }, classes := classes }

/-- The `data` record of a cytoscape node definition. -/
structure NodeData where
  id : String
  label : Option String := none
deriving DecidableEq, Repr

/-- A cytoscape node element definition: data, optional initial position,
locked flag and class string.  Positions are modelled as integer pairs;
the claims below only compare positions for equality, which is
independent of the numeric representation. -/
structure NodeDef where
  data : NodeData
  position : Option (Int × Int) := none
  locked : Bool := false
  classes : String := ""
deriving DecidableEq, Repr

/-- A unary Declare constraint record `{constraint, activity}`. -/
structure UnaryConstraint where
  constraint : String
  activity : String
deriving DecidableEq, Repr

/-- A binary Declare constraint record `{constraint, source, target}`. -/
structure BinaryConstraint where
  constraint : String
  source : String
  target : String
deriving DecidableEq, Repr

/-- A JavaScript object field that is expected to hold an array: it can be
absent (or undefined), present but not an array, or an actual array. -/
inductive JSField (α : Type) where
  | absent : JSField α
  | notSeq : JSField α
  | seq (xs : List α) : JSField α
deriving DecidableEq, Repr

/-- The raw (unvalidated) Declare model value handed to the visualizer. -/
structure RawDeclareModel where
  activities : JSField String
  constraints : JSField BinaryConstraint
  unary : JSField UnaryConstraint
deriving DecidableEq, Repr

/-- `const fixedInitPosition = { x: 0, y: 0 }` (declareVisualizer.tsx). -/
def fixedInitPosition : Int × Int := (0, 0)

/-- `declareModel.unary?.find(u => u.constraint === "init")?.activity`
(declareVisualizer.tsx line 66), for a unary array that is present. -/
def initActivityOf (us : List UnaryConstraint) : Option String :=
  (us.find? (fun u => u.constraint == "init")).map (fun u => u.activity)

/-- The activity-node construction of declareVisualizer.tsx lines 70-80:
one node per activity; the activity found by the first "init" lookup is
locked at the fixed anchor position. -/
def activityNodes (acts : List String) (initActivity : Option String) : List NodeDef :=
  acts.map (fun act =>
    if some act = initActivity then
      { data := { id := act, label := some act },
        position := some fixedInitPosition, locked := true }
    else
      { data := { id := act, label := some act } })

/-- The decorator node pushed for one unary "init" constraint
(declareVisualizer.tsx lines 95-100). -/
def initNodeFor (u : UnaryConstraint) : NodeDef :=
  { data := { id := "init-" ++ u.activity },
    position := some fixedInitPosition, locked := true, classes := "init-node" }

/-- The decorator nodes pushed for every unary "init" constraint
(declareVisualizer.tsx lines 89-100). -/
def initNodes (us : List UnaryConstraint) : List NodeDef :=
  (us.filter (fun u => u.constraint == "init")).map initNodeFor

/-- The decorator edges pushed for every unary "init" constraint
(declareVisualizer.tsx lines 104-111). -/
def initEdges (us : List UnaryConstraint) : List EdgeDef :=
  (us.filter (fun u => u.constraint == "init")).map (fun u =>
    { data := { id := "edge-init-" ++ u.activity, source := "init-" ++ u.activity,
                target := u.activity, constraint := some "init" } })

/-- `declareModel.constraints.flatMap((c, i) => getConstraintEdges(...))`
(declareVisualizer.tsx lines 120-122). -/
def constraintEdges (cs : List BinaryConstraint) : List EdgeDef :=
  (cs.enum).flatMap (fun p => getConstraintEdges p.2.constraint p.2.source p.2.target p.1)

/-- Outcome of one run of the visualizer effect body: the guard can skip
the build, a field access on a malformed value can throw, or the build
succeeds with the assembled node and edge sets. -/
inductive BuildResult where
  | skipped : BuildResult
  | jsError : BuildResult
  | ok (nodes : List NodeDef) (edges : List EdgeDef) : BuildResult
deriving DecidableEq, Repr

/-- The effect body of declareVisualizer.tsx as far as graph assembly:
the guard skips the build unless `activities` is an array
(line 21); `unary?.find` throws on a present non-array `unary`
(line 66); `constraints.flatMap` throws on a missing or non-array
`constraints` (line 120); otherwise the node set is the activity nodes
followed by the init decorator nodes (line 117) and the edge set is the
constraint edges followed by the init decorator edges (line 125). -/
def buildSession (m : RawDeclareModel) : BuildResult :=
  match m.activities with
  | .absent => .skipped
  | .notSeq => .skipped
  | .seq acts =>
    match m.unary with
    | .notSeq => .jsError
    | .absent =>
      match m.constraints with
      | .seq cs => .ok (activityNodes acts none) (constraintEdges cs)
      | _ => .jsError
    | .seq us =>
      match m.constraints with
      | .seq cs =>
        .ok (activityNodes acts (initActivityOf us) ++ initNodes us)
           (constraintEdges cs ++ initEdges us)
      | _ => .jsError

/-- The per-edge length function passed to the cola layout
(declareVisualizer.tsx lines 133-136): 500 when the edge's data carries
`constraint === "succession"`, otherwise 250. -/
def edgeLength (e : EdgeDef) : Nat :=
  if e.data.constraint = some "succession" then 500 else 250

/-- `const nodeSpacingValue = edgeCount > 7 ? 150 : 40`
(declareVisualizer.tsx line 129). -/
def nodeSpacingValue (edgeCount : Nat) : Nat :=
  if edgeCount > 7 then 150 else 40

/-- The option object passed to `cy.layout` (declareVisualizer.tsx lines
131-141).  `nodeSpacing` is `none` when the option object carries no such
key. -/
structure ColaOptions where
  name : String
  edgeLength : EdgeDef → Nat
  avoidOverlap : Bool
  animate : Bool
  randomize : Bool
  maxSimulationTime : Nat
  nodeSpacing : Option Nat := none

/-- The layout invocation of declareVisualizer.tsx lines 127-141: the
edge count and `nodeSpacingValue` are computed, then the literal option
object is passed to `cy.layout`; the object has no `nodeSpacing` key. -/
def layoutOptions (edgeCount : Nat) : ColaOptions :=
  let spacing := nodeSpacingValue edgeCount
  { name := "cola", edgeLength := edgeLength, avoidOverlap := true,
    animate := true, randomize := false, maxSimulationTime := 1500 }

/-- Removal of the first occurrence of `pat` from a character list
(the semantics of JavaScript's `String.prototype.replace` with a string
pattern and an empty replacement). -/
def dropFirstOcc (pat : List Char) : List Char → List Char
  | [] => []
  | c :: cs =>
    if pat.isPrefixOf (c :: cs) then (c :: cs).drop pat.length
    else c :: dropFirstOcc pat cs

/-- `s.replace(pat, "")` for string pattern `pat`: JavaScript replaces
only the first occurrence. -/
def replaceFirst (s pat : String) : String :=
  String.mk (dropFirstOcc pat.data s.data)

/-- One iteration of the repositioning loop of declareVisualizer.tsx
lines 144-148, acting on a map from node ids to current positions: a node
with class "init-node" is moved to `(pos.x - 0, pos.y - 0)` where `pos`
is the current position of the node whose id is obtained by deleting the
first occurrence of "init-"; any other node is left alone. -/
def repinStep (p : String → Int × Int) (n : NodeDef) : String → Int × Int :=
  if n.classes = "init-node" then
    let pos := p (replaceFirst n.data.id "init-")
    Function.update p n.data.id (pos.1 - 0, pos.2 - 0)
  else p

/-- `cy.nodes(".init-node").forEach(...)` (declareVisualizer.tsx lines
144-148) over the node list `ns`, starting from the position assignment
`p` produced by the layout. -/
def repositionInitNodes (ns : List NodeDef) (p : String → Int × Int) :
    String → Int × Int :=
  ns.foldl repinStep p

/-- `(String.mk l).data = l`, stated once for rewriting. -/
theorem data_mk (l : List Char) : (String.mk l).data = l := rfl

/-- Appending to a fixed string on the left is injective on the right
argument. -/
theorem string_append_right_inj (p : String) {a b : String}
    (h : p ++ a = p ++ b) : a = b := by
  have h2 := congrArg String.data h
  simp only [String.data_append] at h2
  exact String.ext (List.append_cancel_left h2)

/-- `fun s => p ++ s` is injective. -/
theorem append_injective (p : String) : Function.Injective (fun s => p ++ s) :=
  fun _ _ h => string_append_right_inj p h

/-- C5: `getConstraintEdges "succession" "A" "B" 0` returns exactly four
edge descriptors with ids `A->B-succession-0-main`,
`A->B-succession-0-sourcecircle`, `A->B-succession-0-targettriangle`,
`A->B-succession-0-targetcircle`, in that order, each with source `A`
and target `B`. -/
theorem C5_succession_concrete_output :
    getConstraintEdges "succession" "A" "B" 0 =
      [ mkEdge "A->B-succession-0-main" "A" "B" "succession-main",
        mkEdge "A->B-succession-0-sourcecircle" "A" "B" "succession-source-circle",
        mkEdge "A->B-succession-0-targettriangle" "A" "B" "succession-target-triangle",
        mkEdge "A->B-succession-0-targetcircle" "A" "B" "succession-target-circle" ] := by
  decide

/-- C1 counterexample: for the table kind `chain_succession` the returned
edge ids are NOT pairwise distinct: the `-2` id occurs twice at the
concrete input `("chain_succession", "A", "B", 0)`. -/
theorem C1_counterexample_chain_succession_dup_ids :
    ¬ ((getConstraintEdges "chain_succession" "A" "B" 0).map
        (fun e => e.data.id)).Nodup := by
  decide

/-- C2: at the failing input `("succession", "A", "B", 0)` every edge
emitted for kind `succession` receives the SHORT edge length 250 from the
layout's per-edge length function, because `getConstraintEdges` never
sets a `constraint` data field, so the function's check
`constraint === "succession"` never fires. -/
theorem C2_succession_edges_get_short_length :
    (getConstraintEdges "succession" "A" "B" 0).map edgeLength =
      [250, 250, 250, 250] := by
  decide

/-- C3: with 8 binary constraints the computed `nodeSpacingValue` is 150,
but the option object actually passed to the layout invocation carries no
`nodeSpacing` key at any constraint count, so the computed value is never
used by the layout. -/
theorem C3_node_spacing_not_passed :
    nodeSpacingValue 8 = 150 ∧ nodeSpacingValue 7 = 40 ∧
    (∀ edgeCount : Nat, (layoutOptions edgeCount).nodeSpacing = none) :=
  ⟨rfl, rfl, fun _ => rfl⟩

/-- C1 (amended): for every kind in the §4.1 mapping table and all
source, target and occurrence index, `getConstraintEdges` returns a
non-empty sequence; the returned ids are pairwise distinct for every
table kind EXCEPT `chain_succession` and `chain_precedence`, whose middle
descriptor id (`...-2`) occurs twice, so their ids are not pairwise
distinct. -/
theorem C1_table_nonempty_and_ids (k : String) (hk : k ∈ tableKinds)
    (s t : String) (i : Nat) :
    getConstraintEdges k s t i ≠ [] ∧
    (k ∉ ["chain_succession", "chain_precedence"] →
      ((getConstraintEdges k s t i).map (fun e => e.data.id)).Nodup) ∧
    (k ∈ ["chain_succession", "chain_precedence"] →
      ¬ ((getConstraintEdges k s t i).map (fun e => e.data.id)).Nodup) := by
  simp only [tableKinds, List.mem_cons, List.not_mem_nil, or_false] at hk
  rcases hk with rfl | rfl | rfl | rfl | rfl | rfl | rfl | rfl | rfl | rfl | rfl | rfl | rfl
  · refine ⟨fun hnil => ?_, fun _ => ?_, fun hmem => absurd hmem (by decide)⟩
    · have hlen : (getConstraintEdges "succession" s t i).length = 4 := rfl
      rw [hnil] at hlen
      simp at hlen
    · have h : (getConstraintEdges "succession" s t i).map (fun e => e.data.id) =
          ["-main", "-sourcecircle", "-targettriangle", "-targetcircle"].map
            (fun suf => (s ++ "->" ++ t ++ "-" ++ "succession" ++ "-" ++ toString i) ++ suf) := rfl
      rw [h, List.nodup_map_iff (append_injective _)]
      decide
  · refine ⟨fun hnil => ?_, fun _ => ?_, fun hmem => absurd hmem (by decide)⟩
    · have hlen : (getConstraintEdges "precedence" s t i).length = 2 := rfl
      rw [hnil] at hlen
      simp at hlen
    · have h : (getConstraintEdges "precedence" s t i).map (fun e => e.data.id) =
          ["-triangle", "-circle"].map
            (fun suf => (s ++ "->" ++ t ++ "-" ++ "precedence" ++ "-" ++ toString i) ++ suf) := rfl
      rw [h, List.nodup_map_iff (append_injective _)]
      decide
  · refine ⟨fun hnil => ?_, fun _ => ?_, fun hmem => absurd hmem (by decide)⟩
    · have hlen : (getConstraintEdges "response" s t i).length = 1 := rfl
      rw [hnil] at hlen
      simp at hlen
    · have h : (getConstraintEdges "response" s t i).map (fun e => e.data.id) =
          [s ++ "->" ++ t ++ "-" ++ "response" ++ "-" ++ toString i] := rfl
      rw [h]
      exact List.nodup_singleton _
  · refine ⟨fun hnil => ?_, fun _ => ?_, fun hmem => absurd hmem (by decide)⟩
    · have hlen : (getConstraintEdges "neg_precedence" s t i).length = 2 := rfl
      rw [hnil] at hlen
      simp at hlen
    · have h : (getConstraintEdges "neg_precedence" s t i).map (fun e => e.data.id) =
          ["-circle", "-triangle"].map
            (fun suf => (s ++ "->" ++ t ++ "-" ++ "neg_precedence" ++ "-" ++ toString i) ++ suf) := rfl
      rw [h, List.nodup_map_iff (append_injective _)]
      decide
  · refine ⟨fun hnil => ?_, fun _ => ?_, fun hmem => absurd hmem (by decide)⟩
    · have hlen : (getConstraintEdges "neg_response" s t i).length = 1 := rfl
      rw [hnil] at hlen
      simp at hlen
    · have h : (getConstraintEdges "neg_response" s t i).map (fun e => e.data.id) =
          [s ++ "->" ++ t ++ "-" ++ "neg_response" ++ "-" ++ toString i] := rfl
      rw [h]
      exact List.nodup_singleton _
  · refine ⟨fun hnil => ?_, fun _ => ?_, fun hmem => absurd hmem (by decide)⟩
    · have hlen : (getConstraintEdges "not_coexistence" s t i).length = 1 := rfl
      rw [hnil] at hlen
      simp at hlen
    · have h : (getConstraintEdges "not_coexistence" s t i).map (fun e => e.data.id) =
          [s ++ "->" ++ t ++ "-" ++ "not_coexistence" ++ "-" ++ toString i] := rfl
      rw [h]
      exact List.nodup_singleton _
  · refine ⟨fun hnil => ?_, fun _ => ?_, fun hmem => absurd hmem (by decide)⟩
    · have hlen : (getConstraintEdges "resp_absence" s t i).length = 1 := rfl
      rw [hnil] at hlen
      simp at hlen
    · have h : (getConstraintEdges "resp_absence" s t i).map (fun e => e.data.id) =
          [s ++ "->" ++ t ++ "-" ++ "resp_absence" ++ "-" ++ toString i] := rfl
      rw [h]
      exact List.nodup_singleton _
  · refine ⟨fun hnil => ?_, fun _ => ?_, fun hmem => absurd hmem (by decide)⟩
    · have hlen : (getConstraintEdges "coexistence" s t i).length = 1 := rfl
      rw [hnil] at hlen
      simp at hlen
    · have h : (getConstraintEdges "coexistence" s t i).map (fun e => e.data.id) =
          [s ++ "->" ++ t ++ "-" ++ "coexistence" ++ "-" ++ toString i] := rfl
      rw [h]
      exact List.nodup_singleton _
  · refine ⟨fun hnil => ?_, fun hnot => absurd (by decide) hnot, fun _ => ?_⟩
    · have hlen : (getConstraintEdges "chain_succession" s t i).length = 4 := rfl
      rw [hnil] at hlen
      simp at hlen
    · have h : (getConstraintEdges "chain_succession" s t i).map (fun e => e.data.id) =
          ["-1", "-2", "-2", "-3"].map
            (fun suf => (s ++ "->" ++ t ++ "-" ++ "chain_succession" ++ "-" ++ toString i) ++ suf) := rfl
      rw [h, List.nodup_map_iff (append_injective _)]
      decide
  · refine ⟨fun hnil => ?_, fun _ => ?_, fun hmem => absurd hmem (by decide)⟩
    · have hlen : (getConstraintEdges "chain_response" s t i).length = 3 := rfl
      rw [hnil] at hlen
      simp at hlen
    · have h : (getConstraintEdges "chain_response" s t i).map (fun e => e.data.id) =
          ["-1", "-2", "-3"].map
            (fun suf => (s ++ "->" ++ t ++ "-" ++ "chain_response" ++ "-" ++ toString i) ++ suf) := rfl
      rw [h, List.nodup_map_iff (append_injective _)]
      decide
  · refine ⟨fun hnil => ?_, fun hnot => absurd (by decide) hnot, fun _ => ?_⟩
    · have hlen : (getConstraintEdges "chain_precedence" s t i).length = 4 := rfl
      rw [hnil] at hlen
      simp at hlen
    · have h : (getConstraintEdges "chain_precedence" s t i).map (fun e => e.data.id) =
          ["-1", "-2", "-2", "-3"].map
            (fun suf => (s ++ "->" ++ t ++ "-" ++ "chain_precedence" ++ "-" ++ toString i) ++ suf) := rfl
      rw [h, List.nodup_map_iff (append_injective _)]
      decide
  · refine ⟨fun hnil => ?_, fun _ => ?_, fun hmem => absurd hmem (by decide)⟩
    · have hlen : (getConstraintEdges "resp_existence" s t i).length = 1 := rfl
      rw [hnil] at hlen
      simp at hlen
    · have h : (getConstraintEdges "resp_existence" s t i).map (fun e => e.data.id) =
          [s ++ "->" ++ t ++ "-" ++ "resp_existence" ++ "-" ++ toString i] := rfl
      rw [h]
      exact List.nodup_singleton _
  · refine ⟨fun hnil => ?_, fun _ => ?_, fun hmem => absurd hmem (by decide)⟩
    · have hlen : (getConstraintEdges "choice" s t i).length = 1 := rfl
      rw [hnil] at hlen
      simp at hlen
    · have h : (getConstraintEdges "choice" s t i).map (fun e => e.data.id) =
          [s ++ "->" ++ t ++ "-" ++ "choice" ++ "-" ++ toString i] := rfl
      rw [h]
      exact List.nodup_singleton _

/-- C1 witness: the amended C1 theorem applied at the concrete input
`("precedence", "A", "B", 1)`. -/
theorem C1_table_nonempty_and_ids_witness :
    getConstraintEdges "precedence" "A" "B" 1 ≠ [] ∧
    ("precedence" ∉ ["chain_succession", "chain_precedence"] →
      ((getConstraintEdges "precedence" "A" "B" 1).map (fun e => e.data.id)).Nodup) ∧
    ("precedence" ∈ ["chain_succession", "chain_precedence"] →
      ¬ ((getConstraintEdges "precedence" "A" "B" 1).map (fun e => e.data.id)).Nodup) :=
  C1_table_nonempty_and_ids "precedence" (by decide) "A" "B" 1

/-- The character-list form of `normalizeKind`. -/
theorem normalizeKind_data (s : String) :
    (normalizeKind s).data =
      (s.data.map Char.toLower).map
        (fun c => if c.isWhitespace || c == '-' then '_' else c) := rfl

/-- C4 counterexample: normalization does NOT collapse a run of
separator characters to a single underscore: the kind `"XYZ  abc"`
(two consecutive spaces) normalizes to `"xyz__abc"`, not `"xyz_abc"`. -/
theorem C4_counterexample_run_not_collapsed :
    normalizeKind "XYZ  abc" = "xyz__abc" ∧ normalizeKind "XYZ  abc" ≠ "xyz_abc" := by
  decide

/-- C4 (amended): normalization lower-cases the kind and replaces EVERY
whitespace or hyphen character by its own underscore, so a maximal run of
n separator characters becomes n underscores rather than one. -/
theorem C4_separator_runs_become_underscores (a b : String) (ws : List Char)
    (hws : ∀ c ∈ ws, (c.isWhitespace || c == '-') = true) :
    normalizeKind (a ++ String.mk ws ++ b) =
      normalizeKind a ++ String.mk (List.replicate ws.length '_') ++ normalizeKind b := by
  have key : ∀ c ∈ ws,
      (if (Char.toLower c).isWhitespace || (Char.toLower c) == '-' then '_'
       else Char.toLower c) = '_' := by
    intro c hc
    have h2 := hws c hc
    simp only [Char.isWhitespace, Bool.or_eq_true, decide_eq_true_eq, beq_iff_eq] at h2
    rcases h2 with ((((rfl | rfl) | rfl) | rfl) | rfl) <;> decide
  apply String.ext
  simp only [normalizeKind_data, String.data_append, data_mk, List.map_append]
  have hmid : (ws.map Char.toLower).map
      (fun c => if c.isWhitespace || c == '-' then '_' else c) =
      List.replicate ws.length '_' := by
    refine List.eq_replicate_iff.mpr ⟨by simp, ?_⟩
    intro x hx
    obtain ⟨c2, hc2, rfl⟩ := List.mem_map.mp hx
    obtain ⟨c, hc, rfl⟩ := List.mem_map.mp hc2
    exact key c hc
  rw [hmid]

/-- C4 witness: the amended C4 theorem applied to the concrete run of two
spaces between `"XYZ"` and `"abc"`. -/
theorem C4_separator_runs_witness :
    normalizeKind ("XYZ" ++ String.mk [' ', ' '] ++ "abc") =
      normalizeKind "XYZ" ++
        String.mk (List.replicate ([' ', ' '] : List Char).length '_') ++
        normalizeKind "abc" :=
  C4_separator_runs_become_underscores "XYZ" "abc" [' ', ' '] (by decide)

/-- C6: for every constraint kind whose normalized form is not in the
mapping table, `getConstraintEdges` totally returns exactly one
descriptor, with the default class `line-single` and a label equal to the
normalized kind string. -/
theorem C6_default_fallback (k s t : String) (i : Nat)
    (hk : normalizeKind k ∉ tableKinds) :
    getConstraintEdges k s t i =
      [ { data := { id := s ++ "->" ++ t ++ "-" ++ normalizeKind k ++ "-" ++ toString i,
                    source := s, target := t, label := some (normalizeKind k) },
          classes := "line-single" } ] := by
  simp only [tableKinds, List.mem_cons, List.not_mem_nil, or_false, not_or] at hk
  obtain ⟨h1, h2, h3, h4, h5, h6, h7, h8, h9, h10, h11, h12, h13⟩ := hk
  simp only [getConstraintEdges, if_neg h1, if_neg h2, if_neg h3, if_neg h4, if_neg h5,
    if_neg h6, if_neg h7, if_neg h8, if_neg h9, if_neg h10, if_neg h11, if_neg h12,
    if_neg h13]

/-- C6 witness: the unrecognized kind `"XYZ abc"` yields exactly one
default descriptor labelled `"xyz_abc"`. -/
theorem C6_default_fallback_witness :
    getConstraintEdges "XYZ abc" "A" "B" 0 =
      [ { data := { id := "A->B-xyz_abc-0", source := "A", target := "B",
                    label := some "xyz_abc" }, classes := "line-single" } ] := by
  have h := C6_default_fallback "XYZ abc" "A" "B" 0 (by decide)
  exact h.trans (by decide)

/-- C7 counterexample: a model whose `activities` is a valid array but
whose `constraints` field is missing passes the guard and reaches the
unguarded `constraints.flatMap` access, so an exception escapes the
build (the claim says no malformed shape causes an exception). -/
theorem C7_counterexample_missing_constraints_throws :
    buildSession { activities := .seq ["A"], constraints := .absent,
                   unary := .absent } = .jsError := rfl

/-- C7 (amended): if `activities` is missing or not a sequence the build
is skipped and no exception escapes, but with a valid `activities` array
a present non-sequence `unary`, or a missing or non-sequence
`constraints`, raises an exception out of the build; the build completes
without error exactly when `constraints` is a sequence and `unary` is
absent or a sequence. -/
theorem C7_guard_and_throw (m : RawDeclareModel) :
    (m.activities = .absent ∨ m.activities = .notSeq → buildSession m = .skipped) ∧
    (∀ acts, m.activities = .seq acts →
      (m.unary = .notSeq ∨ m.constraints = .absent ∨ m.constraints = .notSeq →
        buildSession m = .jsError) ∧
      (∀ cs, m.constraints = .seq cs → m.unary ≠ .notSeq →
        ∃ ns es, buildSession m = .ok ns es)) := by
  obtain ⟨a, c, u⟩ := m
  cases a <;> cases c <;> cases u <;>
    simp [buildSession]

/-- C7 witness: the amended C7 theorem applied to a model whose
`activities` field is present but not an array. -/
theorem C7_guard_and_throw_witness :
    buildSession { activities := .notSeq, constraints := .absent,
                   unary := .absent } = .skipped :=
  (C7_guard_and_throw _).1 (Or.inr rfl)

/-- C8: for activities `["A","B"]`, one unary constraint
`{constraint:"init", activity:"A"}` and no binary constraints, the
assembled node set is exactly `A` (locked at the origin), `B`, and the
decorator `init-A` (locked at the origin), and the assembled edge set is
exactly `edge-init-A` from `init-A` to `A`. -/
theorem C8_minimal_init_model :
    buildSession { activities := .seq ["A", "B"], constraints := .seq [],
                   unary := .seq [{ constraint := "init", activity := "A" }] } =
      .ok
        [ { data := { id := "A", label := some "A" },
            position := some (0, 0), locked := true },
          { data := { id := "B", label := some "B" } },
          { data := { id := "init-A" }, position := some (0, 0),
            locked := true, classes := "init-node" } ]
        [ { data := { id := "edge-init-A", source := "init-A", target := "A",
                      constraint := some "init" } } ] := by
  decide

/-- Deleting a leading occurrence of a non-trivial pattern. -/
theorem dropFirstOcc_cons_append (c : Char) (cs rest : List Char) :
    dropFirstOcc (c :: cs) ((c :: cs) ++ rest) = rest := by
  have hpre : (c :: cs).isPrefixOf (c :: (cs ++ rest)) = true :=
    List.isPrefixOf_iff_prefix.mpr (List.prefix_append _ _)
  show dropFirstOcc (c :: cs) (c :: (cs ++ rest)) = rest
  simp only [dropFirstOcc]
  rw [if_pos hpre]
  show ((c :: cs) ++ rest).drop (c :: cs).length = rest
  exact List.drop_left _ _

/-- Deleting a leading occurrence of any non-empty pattern. -/
theorem dropFirstOcc_append_self (pat rest : List Char) (h : pat ≠ []) :
    dropFirstOcc pat (pat ++ rest) = rest := by
  cases pat with
  | nil => exact absurd rfl h
  | cons c cs => exact dropFirstOcc_cons_append c cs rest

/-- `("init-" + a).replace("init-", "") = a`: the repositioning loop's id
arithmetic recovers the anchor activity id from a decorator node id. -/
theorem replaceFirst_init_id (a : String) :
    replaceFirst ("init-" ++ a) "init-" = a := by
  apply String.ext
  show dropFirstOcc "init-".data ("init-" ++ a).data = a.data
  rw [String.data_append]
  exact dropFirstOcc_append_self _ _ (by decide)

/-- A repositioning step leaves every id other than the stepped node's
own id unchanged (and nodes without the decorator class change
nothing). -/
theorem repinStep_other (p : String → Int × Int) (n : NodeDef) (k : String)
    (h : n.classes = "init-node" → n.data.id ≠ k) : repinStep p n k = p k := by
  unfold repinStep
  by_cases hcls : n.classes = "init-node"
  · rw [if_pos hcls]
    exact Function.update_noteq (Ne.symm (h hcls)) _ _
  · rw [if_neg hcls]

/-- The repositioning loop leaves any id carried by no decorator-classed
node unchanged. -/
theorem repositionInitNodes_untouched (ns : List NodeDef) :
    ∀ (p : String → Int × Int) (k : String),
      (∀ n ∈ ns, n.classes = "init-node" → n.data.id ≠ k) →
      repositionInitNodes ns p k = p k := by
  induction ns with
  | nil => intro p k _; rfl
  | cons n rest ih =>
    intro p k h
    show repositionInitNodes rest (repinStep p n) k = (p k)
    rw [ih (repinStep p n) k (fun m hm hc => h m (List.mem_cons_of_mem _ hm) hc)]
    exact repinStep_other p n k (fun hc => h n (List.mem_cons_self _ _) hc)

/-- After the repositioning loop, every decorator-classed node's id maps
to the pre-loop position of its anchor id, provided no anchor id is
itself the id of a decorator-classed node. -/
theorem repositionInitNodes_decorator (ns : List NodeDef) :
    ∀ (p : String → Int × Int),
      (∀ n ∈ ns, n.classes = "init-node" → ∀ m ∈ ns, m.classes = "init-node" →
        replaceFirst n.data.id "init-" ≠ m.data.id) →
      ∀ d ∈ ns, d.classes = "init-node" →
        repositionInitNodes ns p d.data.id = p (replaceFirst d.data.id "init-") := by
  induction ns with
  | nil => intro p _ d hd; exact absurd hd (List.not_mem_nil _)
  | cons n rest ih =>
    intro p hanch d hd hdcls
    have hanchrest : ∀ x ∈ rest, x.classes = "init-node" → ∀ y ∈ rest,
        y.classes = "init-node" → replaceFirst x.data.id "init-" ≠ y.data.id :=
      fun x hx hxc y hy hyc =>
        hanch x (List.mem_cons_of_mem _ hx) hxc y (List.mem_cons_of_mem _ hy) hyc
    rcases List.mem_cons.mp hd with rfl | hdrest
    · show repositionInitNodes rest (repinStep p d) d.data.id =
        p (replaceFirst d.data.id "init-")
      by_cases hrest : ∃ m ∈ rest, m.classes = "init-node" ∧ m.data.id = d.data.id
      · obtain ⟨m, hm, hmcls, hmid⟩ := hrest
        have hres := ih (repinStep p d) hanchrest m hm hmcls
        rw [← hmid, hres]
        apply repinStep_other
        intro hdc
        exact Ne.symm
          (hanch m (List.mem_cons_of_mem _ hm) hmcls d (List.mem_cons_self _ _) hdcls)
      · push_neg at hrest
        rw [repositionInitNodes_untouched rest (repinStep p d) d.data.id
          (fun m hm hmc => hrest m hm hmc)]
        unfold repinStep
        rw [if_pos hdcls]
        show Function.update p d.data.id
            ((p (replaceFirst d.data.id "init-")).1 - 0,
             (p (replaceFirst d.data.id "init-")).2 - 0) d.data.id =
          p (replaceFirst d.data.id "init-")
        rw [Function.update_same]
        simp
    · show repositionInitNodes rest (repinStep p n) d.data.id =
        p (replaceFirst d.data.id "init-")
      rw [ih (repinStep p n) hanchrest d hdrest hdcls]
      apply repinStep_other
      intro hnc
      exact Ne.symm
        (hanch d (List.mem_cons_of_mem _ hdrest) hdcls n (List.mem_cons_self _ _) hnc)

/-- Activity nodes carry the empty class string. -/
theorem activityNodes_classes (acts : List String) (io : Option String) :
    ∀ n ∈ activityNodes acts io, n.classes = "" := by
  intro n hn
  obtain ⟨act, _, rfl⟩ := List.mem_map.mp hn
  show (if some act = io then
      ({ data := { id := act, label := some act },
         position := some fixedInitPosition, locked := true } : NodeDef)
    else { data := { id := act, label := some act } }).classes = ""
  split <;> rfl

/-- Every member of `initNodes us` is the decorator record of some unary
"init" constraint of `us`. -/
theorem mem_initNodes (us : List UnaryConstraint) (n : NodeDef)
    (hn : n ∈ initNodes us) :
    ∃ u, u ∈ us ∧ u.constraint = "init" ∧ n = initNodeFor u := by
  obtain ⟨u, hu, rfl⟩ := List.mem_map.mp hn
  have h2 := List.mem_filter.mp hu
  exact ⟨u, h2.1, by simpa using h2.2, rfl⟩

/-- The decorator record of a unary "init" constraint is a member of
`initNodes us`. -/
theorem initNode_mem (us : List UnaryConstraint) (u : UnaryConstraint)
    (hu : u ∈ us) (hinit : u.constraint = "init") :
    initNodeFor u ∈ initNodes us :=
  List.mem_map.mpr ⟨u, List.mem_filter.mpr ⟨hu, by simp [hinit]⟩, rfl⟩

/-- In the assembled node list, every decorator-classed node is the
decorator record of some unary "init" constraint. -/
theorem mem_assembled_init (acts : List String) (io : Option String)
    (us : List UnaryConstraint) (n : NodeDef)
    (hn : n ∈ activityNodes acts io ++ initNodes us)
    (hncls : n.classes = "init-node") :
    ∃ u, u ∈ us ∧ u.constraint = "init" ∧ n = initNodeFor u := by
  rcases List.mem_append.mp hn with h | h
  · rw [activityNodes_classes acts io n h] at hncls
    exact absurd hncls (by decide)
  · exact mem_initNodes us n h

/-- C9: for any post-layout position assignment, after the repositioning
loop every decorator node `init-<activity>` of a unary "init" constraint
has exactly the final position of its anchor activity node, with zero
offset — including decorators whose anchor is not the first "init"
activity.  The hypothesis `hcol` rules out id collisions between
decorator ids and init activity names. -/
theorem C9_decorators_repinned (acts : List String) (us : List UnaryConstraint)
    (p : String → Int × Int)
    (hcol : ∀ u ∈ us, u.constraint = "init" → ∀ v ∈ us, v.constraint = "init" →
      "init-" ++ u.activity ≠ v.activity)
    (u : UnaryConstraint) (hu : u ∈ us) (hinit : u.constraint = "init") :
    repositionInitNodes (activityNodes acts (initActivityOf us) ++ initNodes us) p
        ("init-" ++ u.activity) =
      repositionInitNodes (activityNodes acts (initActivityOf us) ++ initNodes us) p
        u.activity := by
  have hanch : ∀ n ∈ activityNodes acts (initActivityOf us) ++ initNodes us,
      n.classes = "init-node" →
      ∀ m ∈ activityNodes acts (initActivityOf us) ++ initNodes us,
      m.classes = "init-node" → replaceFirst n.data.id "init-" ≠ m.data.id := by
    intro n hn hncls m hm hmcls
    obtain ⟨un, hun, huninit, rfl⟩ := mem_assembled_init acts _ us n hn hncls
    obtain ⟨um, hum, huminit, rfl⟩ := mem_assembled_init acts _ us m hm hmcls
    show replaceFirst ("init-" ++ un.activity) "init-" ≠ "init-" ++ um.activity
    rw [replaceFirst_init_id]
    exact fun he => hcol um hum huminit un hun huninit he.symm
  have hdmem : initNodeFor u ∈
      activityNodes acts (initActivityOf us) ++ initNodes us :=
    List.mem_append.mpr (Or.inr (initNode_mem us u hu hinit))
  have hdec := repositionInitNodes_decorator
    (activityNodes acts (initActivityOf us) ++ initNodes us) p hanch _ hdmem rfl
  have hanchor : repositionInitNodes
      (activityNodes acts (initActivityOf us) ++ initNodes us) p u.activity =
      p u.activity := by
    apply repositionInitNodes_untouched
    intro n hn hncls
    obtain ⟨un, hun, huninit, rfl⟩ := mem_assembled_init acts _ us n hn hncls
    exact hcol un hun huninit u hu hinit
  rw [hanchor]
  rw [show (initNodeFor u).data.id = "init-" ++ u.activity from rfl] at hdec
  rw [replaceFirst_init_id] at hdec
  exact hdec

/-- C9 witness: a model with two "init" constraints, applied at the
decorator of the second init activity `B` (not the first), under a
layout that placed `B` away from the origin. -/
theorem C9_decorators_repinned_witness :
    repositionInitNodes
        (activityNodes ["A", "B"]
            (initActivityOf [⟨"init", "A"⟩, ⟨"init", "B"⟩]) ++
          initNodes [⟨"init", "A"⟩, ⟨"init", "B"⟩])
        (fun id => if id = "B" then (100, 7) else (0, 0))
        ("init-" ++ "B") =
      repositionInitNodes
        (activityNodes ["A", "B"]
            (initActivityOf [⟨"init", "A"⟩, ⟨"init", "B"⟩]) ++
          initNodes [⟨"init", "A"⟩, ⟨"init", "B"⟩])
        (fun id => if id = "B" then (100, 7) else (0, 0))
        "B" :=
  C9_decorators_repinned ["A", "B"] [⟨"init", "A"⟩, ⟨"init", "B"⟩]
    (fun id => if id = "B" then (100, 7) else (0, 0)) (by decide)
    ⟨"init", "B"⟩ (by decide) rfl

/-- C10: every edge descriptor returned by `getConstraintEdges` carries
the given source and target verbatim and no `constraint` data field, so
the same holds for every assembled binary-constraint edge; the only
edges whose data carries a `constraint` field are the synthetic
decorator edges, where it equals "init". -/
theorem C10_edge_constraint_fields :
    (∀ (k s t : String) (i : Nat), ∀ e ∈ getConstraintEdges k s t i,
      e.data.source = s ∧ e.data.target = t ∧ e.data.constraint = none) ∧
    (∀ cs : List BinaryConstraint, ∀ e ∈ constraintEdges cs,
      e.data.constraint = none) ∧
    (∀ us : List UnaryConstraint, ∀ e ∈ initEdges us,
      e.data.constraint = some "init") := by
  have h1 : ∀ (k s t : String) (i : Nat), ∀ e ∈ getConstraintEdges k s t i,
      e.data.source = s ∧ e.data.target = t ∧ e.data.constraint = none := by
    intro k s t i
    by_cases h1 : normalizeKind k = "succession"
    · simp only [getConstraintEdges, if_pos h1]
      simp
    by_cases h2 : normalizeKind k = "precedence"
    · simp only [getConstraintEdges, if_neg h1, if_pos h2]
      simp
    by_cases h3 : normalizeKind k = "response"
    · simp only [getConstraintEdges, if_neg h1, if_neg h2, if_pos h3]
      simp
    by_cases h4 : normalizeKind k = "neg_precedence"
    · simp only [getConstraintEdges, if_neg h1, if_neg h2, if_neg h3, if_pos h4]
      simp
    by_cases h5 : normalizeKind k = "neg_response"
    · simp only [getConstraintEdges, if_neg h1, if_neg h2, if_neg h3, if_neg h4,
        if_pos h5]
      simp
    by_cases h6 : normalizeKind k = "not_coexistence"
    · simp only [getConstraintEdges, if_neg h1, if_neg h2, if_neg h3, if_neg h4,
        if_neg h5, if_pos h6]
      simp
    by_cases h7 : normalizeKind k = "resp_absence"
    · simp only [getConstraintEdges, if_neg h1, if_neg h2, if_neg h3, if_neg h4,
        if_neg h5, if_neg h6, if_pos h7]
      simp
    by_cases h8 : normalizeKind k = "coexistence"
    · simp only [getConstraintEdges, if_neg h1, if_neg h2, if_neg h3, if_neg h4,
        if_neg h5, if_neg h6, if_neg h7, if_pos h8]
      simp
    by_cases h9 : normalizeKind k = "chain_succession"
    · simp only [getConstraintEdges, if_neg h1, if_neg h2, if_neg h3, if_neg h4,
        if_neg h5, if_neg h6, if_neg h7, if_neg h8, if_pos h9]
      simp
    by_cases h10 : normalizeKind k = "chain_response"
    · simp only [getConstraintEdges, if_neg h1, if_neg h2, if_neg h3, if_neg h4,
        if_neg h5, if_neg h6, if_neg h7, if_neg h8, if_neg h9, if_pos h10]
      simp
    by_cases h11 : normalizeKind k = "chain_precedence"
    · simp only [getConstraintEdges, if_neg h1, if_neg h2, if_neg h3, if_neg h4,
        if_neg h5, if_neg h6, if_neg h7, if_neg h8, if_neg h9, if_neg h10, if_pos h11]
      simp
    by_cases h12 : normalizeKind k = "resp_existence"
    · simp only [getConstraintEdges, if_neg h1, if_neg h2, if_neg h3, if_neg h4,
        if_neg h5, if_neg h6, if_neg h7, if_neg h8, if_neg h9, if_neg h10,
        if_neg h11, if_pos h12]
      simp
    by_cases h13 : normalizeKind k = "choice"
    · simp only [getConstraintEdges, if_neg h1, if_neg h2, if_neg h3, if_neg h4,
        if_neg h5, if_neg h6, if_neg h7, if_neg h8, if_neg h9, if_neg h10,
        if_neg h11, if_neg h12, if_pos h13]
      simp
    simp only [getConstraintEdges, if_neg h1, if_neg h2, if_neg h3, if_neg h4,
      if_neg h5, if_neg h6, if_neg h7, if_neg h8, if_neg h9, if_neg h10,
      if_neg h11, if_neg h12, if_neg h13]
    simp
  refine ⟨h1, ?_, ?_⟩
  · intro cs e he
    obtain ⟨a, _, hea⟩ := List.mem_flatMap.mp he
    exact (h1 _ _ _ _ e hea).2.2
  · intro us e he
    obtain ⟨u2, _, rfl⟩ := List.mem_map.mp he
    rfl

/-- C10 witness: the single edge emitted for kind "choice" at a concrete
input carries source "A", target "B" and no constraint field. -/
theorem C10_edge_constraint_fields_witness :
    (mkEdge "A->B-choice-0" "A" "B" "line-choice").data.source = "A" ∧
    (mkEdge "A->B-choice-0" "A" "B" "line-choice").data.target = "B" ∧
    (mkEdge "A->B-choice-0" "A" "B" "line-choice").data.constraint = none :=
  C10_edge_constraint_fields.1 "choice" "A" "B" 0 _ (by decide)

end DeclareViz
